import Mathlib

/-!
Verification of tag_genre_by_folder.py (music-library genre tagger).

The script derives a genre label from the first folder under a library root,
normalizes it, and writes it into each audio file's genre tag, in batches.
We embed the pure string processing directly and the filesystem-touching parts
as explicit state passing over a small filesystem model.

Python strings are modelled as lists of Unicode code points (Nat); the
case-mapping functions are modelled on the ASCII range, which covers every
string the script manipulates (extensions, tag keys, the preserve set).
-/

/-- Model of a Python string: the list of its code points. -/
abbrev PyStr := List Nat

/-- Convert a Lean string literal into the code-point model. -/
def str (s : String) : PyStr := s.toList.map Char.toNat

/-- Python str.upper on one code point (ASCII range, as used by the script). -/
def pyUpperChar (c : Nat) : Nat := if 97 ≤ c ∧ c ≤ 122 then c - 32 else c

/-- Python str.lower on one code point (ASCII range). -/
def pyLowerChar (c : Nat) : Nat := if 65 ≤ c ∧ c ≤ 90 then c + 32 else c

/-- Python whitespace test for str.split() / str.strip(): space, tab, LF, VT, FF, CR. -/
def pyIsSpace (c : Nat) : Bool := decide (c = 32 ∨ c = 9 ∨ c = 10 ∨ c = 11 ∨ c = 12 ∨ c = 13)

/-- Python str.upper. -/
def pyUpper (s : PyStr) : PyStr := s.map pyUpperChar

/-- Python str.lower. -/
def pyLower (s : PyStr) : PyStr := s.map pyLowerChar

/-- Python str.capitalize: first code point upper-cased, the rest lower-cased. -/
def pyCapitalize : PyStr → PyStr
  | [] => []
  | c :: rest => pyUpperChar c :: rest.map pyLowerChar

/-- Python str.strip(): remove leading and trailing whitespace. -/
def pyStrip (s : PyStr) : PyStr :=
  ((s.dropWhile pyIsSpace).reverse.dropWhile pyIsSpace).reverse

/-- Helper for str.split(): walk the string accumulating the current token
(reversed); whitespace flushes the token, and no empty tokens are produced. -/
def pySplitAux : PyStr → PyStr → List PyStr
  | [], [] => []
  | [], a :: acc => [(a :: acc).reverse]
  | c :: rest, acc =>
    if pyIsSpace c then
      match acc with
      | [] => pySplitAux rest []
      | a :: as => (a :: as).reverse :: pySplitAux rest []
    else
      pySplitAux rest (c :: acc)

/-- Python str.split() with no argument: split on whitespace runs. -/
def pySplit (s : PyStr) : List PyStr := pySplitAux s []

/-- Join a list of tokens with single spaces (Python ' '.join). -/
def pyJoinSp : List PyStr → PyStr
  | [] => []
  | [w] => w
  | w :: w' :: ws => w ++ 32 :: pyJoinSp (w' :: ws)

/-- Python substring test helper: does the second list start with the first? -/
def startsWith : List Nat → List Nat → Bool
  | [], _ => true
  | _ :: _, [] => false
  | a :: as, b :: bs => a == b && startsWith as bs

/-- Python `needle in hay` for strings: substring containment. -/
def pyContains (needle : List Nat) : List Nat → Bool
  | [] => startsWith needle []
  | a :: t => startsWith needle (a :: t) || pyContains needle t

/-- The words_to_preserve set of normalize_genre (source lines 159-160). -/
def words_to_preserve : List PyStr :=
  [str "DJ", str "MC", str "UK", str "US", str "R&B", str "A&R", str "EDM",
   str "IDM", str "DnB", str "D&B", str "J-Pop", str "K-Pop", str "EMD"]

/-- Loop body of normalize_genre (source lines 163-167): preserve the
upper-cased word when its upper-cased form is in the set, else capitalize. -/
def normWord (w : PyStr) : PyStr :=
  if pyUpper w ∈ words_to_preserve then pyUpper w else pyCapitalize w

/-- normalize_genre (source lines 153-169): strip, split on whitespace,
map each word through the preserve/capitalize rule, rejoin with spaces. -/
def normalize_genre (genre : PyStr) : PyStr :=
  pyJoinSp ((pySplit (pyStrip genre)).map normWord)

/-!
Filesystem model for one audio file.

The mutagen container is modelled by the on-disk tag dictionary (key to
list-of-values; `none` means the file has no tag block at all, e.g. an MP3
without an ID3 header).  `content` is an abstract version counter bumped by
every on-disk write (add_tags+save, save), so "no write" is `content`
(and the whole state) unchanged.  External failure modes that the script
reacts to are explicit flags:
- `readable`/`writable`: the file's own permission bits; os.chmod(file, 0o664)
  sets both (owner/group rw, world read).
- `aclDenied`: a permission denial that mode bits cannot clear (ACL mask,
  directory-level denial); chmod on the file leaves it in place.
- `openCorrupt`: mutagen raises a non-permission parse error on open.
- `saveFails`: save() raises a non-permission error.
- `copyFails`: shutil.copy2 raises.
- `chmodRaises`: os.chmod itself raises (not owner, read-only fs).
-/

/-- External failure-mode flags for one file (see module comment). -/
structure IOFlags where
  aclDenied : Bool
  openCorrupt : Bool
  saveFails : Bool
  copyFails : Bool
  chmodRaises : Bool
deriving DecidableEq

/-- On-disk state of the audio file itself. `ext` is path.suffix.lower(). -/
structure FileData where
  ext : String
  tags : Option (List (String × List PyStr))
  content : Nat
  readable : Bool
  writable : Bool
deriving DecidableEq

/-- The file plus its sibling ".bak" path and the external flags. -/
structure FsState where
  file : FileData
  backup : Option FileData
  io : IOFlags
deriving DecidableEq

/-- FORMAT_HANDLERS (source lines 86-110), restricted to the data the update
logic observes: extension to tag key.  Every getter in the table is the
identity on the first element of the value list; every setter stores the
genre as a single-element list (for ".mp3"/".mp2" the scalar assigned to
EasyID3 is wrapped into a list by the container itself). -/
def FORMAT_HANDLERS : List (String × String) :=
  [(".flac", "genre"), (".mp3", "genre"), (".mp4", "\xa9gen"), (".m4a", "\xa9gen"),
   (".m4b", "\xa9gen"), (".aac", "\xa9gen"), (".ogg", "genre"), (".opus", "genre"),
   (".oga", "genre"), (".mpc", "genre"), (".ape", "genre"), (".wv", "genre"),
   (".tta", "genre"), (".wma", "WM/Genre"), (".aiff", "TCON"), (".aif", "TCON"),
   (".wav", "TCON"), (".ofr", "genre"), (".ofs", "genre"), (".tak", "genre"),
   (".dsf", "TCON"), (".dff", "TCON"), (".mp2", "genre")]

/-- Dictionary lookup in FORMAT_HANDLERS. -/
def lookupHandler (ext : String) : Option String := FORMAT_HANDLERS.lookup ext

/-- First value stored under a tag key (association-list lookup). -/
def lookupTag (d : List (String × List PyStr)) (k : String) : Option (List PyStr) :=
  match d with
  | [] => none
  | (k', v) :: rest => if k' = k then some v else lookupTag rest k

/-- Store a value under a tag key, replacing an existing entry. -/
def setTag (d : List (String × List PyStr)) (k : String) (v : List PyStr) :
    List (String × List PyStr) :=
  match d with
  | [] => [(k, v)]
  | (k', v') :: rest => if k' = k then (k, v) :: rest else (k', v') :: setTag rest k v

/-- Exceptions the try-block of set_genre_tag can raise. -/
inductive Exn
  | perm
  | other
deriving DecidableEq

/-- Opening the container (AudioClass(str(file_path))).  PermissionError
comes first (the OS open call precedes parsing), then a mutagen parse error;
an EasyID3-based class (`needsTags`) additionally raises ID3NoHeaderError
when the file has no tag block. -/
def openExn (needsTags : Bool) (s : FsState) : Option Exn :=
  if !s.file.readable || s.io.aclDenied then some .perm
  else if s.io.openCorrupt then some .other
  else if needsTags && s.file.tags.isNone then some .other
  else none

/-- audio.save(): PermissionError first, then any other save failure. -/
def saveExn (s : FsState) : Option Exn :=
  if !s.file.writable || s.io.aclDenied then some .perm
  else if s.io.saveFails then some .other
  else none

/-- Effect of MP3(path); add_tags(); save(): an empty tag block is written. -/
def addTagsSaved (s : FsState) : FsState :=
  { s with file := { s.file with tags := some [], content := s.file.content + 1 } }

/-- os.chmod(file_path, 0o664): owner/group read-write, world read. -/
def chmod664 (s : FsState) : FsState :=
  { s with file := { s.file with readable := true, writable := true } }

/-- backup_file (source lines 186-195): copy to the ".bak" sibling unless it
already exists; any exception is caught, logged and turned into False. -/
def backup_file (s : FsState) : Bool × FsState :=
  if s.backup.isSome then (true, s)
  else if s.io.copyFails then (false, s)
  else (true, { s with backup := some s.file })

/-- audio.get(tag_key, [None])[0] on an opened container (source lines
230-236): missing key yields the default's first element None; an empty
stored list makes the [0] subscript raise IndexError; otherwise the first
element is returned (every getter in the table is the identity on it). -/
def readCurrent (d : List (String × List PyStr)) (k : String) :
    Except Unit (Option PyStr) :=
  match lookupTag d k with
  | none => .ok none
  | some [] => .error ()
  | some (v :: _) => .ok (some v)

/-- Current-genre read, covering the no-tag-block container (get returns the
default, so None). -/
def getCurrent (tags : Option (List (String × List PyStr))) (k : String) :
    Except Unit (Option PyStr) :=
  match tags with
  | none => .ok none
  | some d => readCurrent d k

/-- Result of running the body of set_genre_tag's try block: either a normal
return value with the state it left, or a raised exception with the state at
the raise point. -/
inductive BodyResult
  | ret (b : Bool) (s : FsState)
  | raised (e : Exn) (s : FsState)
deriving DecidableEq

/-- The open phase (source lines 215-227).  For ".mp3" the EasyID3 open is
wrapped in a bare try/except: on any failure the code returns True in
dry-run, otherwise opens with MP3, writes an empty tag block (add_tags +
save) and re-opens — the re-open succeeds because the block now exists and
the other failure causes were just ruled out.  Other extensions open
directly and any exception propagates to the outer handlers. -/
inductive OpenResult
  | opened (s : FsState)
  | earlyReturn (b : Bool)
  | raised (e : Exn) (s : FsState)
deriving DecidableEq

def openPhase (isMp3 needsTags dry_run : Bool) (s : FsState) : OpenResult :=
  if isMp3 then
    match openExn true s with
    | none => .opened s
    | some _ =>
      if dry_run then .earlyReturn true
      else
        match openExn false s with
        | some e => .raised e s
        | none =>
          match saveExn s with
          | some e => .raised e s
          | none => .opened (addTagsSaved s)
  else
    match openExn needsTags s with
    | some e => .raised e s
    | none => .opened s

/-- Body of the try block of set_genre_tag (source lines 214-258): open,
read the current value, return False on exact equality, True without
touching anything in dry-run, else optional backup (its Bool result is
discarded), write the tag and save. -/
def tryBody (isMp3 needsTags : Bool) (tagKey : String) (genre : PyStr)
    (dry_run make_backup : Bool) (s₀ : FsState) : BodyResult :=
  match openPhase isMp3 needsTags dry_run s₀ with
  | .raised e s => .raised e s
  | .earlyReturn b => .ret b s₀
  | .opened s₁ =>
    match getCurrent s₁.file.tags tagKey with
    | .error _ => .raised .other s₁
    | .ok c =>
      if c = some genre then .ret false s₁
      else if dry_run then .ret true s₁
      else
        let s₂ := if make_backup then (backup_file s₁).2 else s₁
        match s₂.file.tags with
        | none => .raised .other s₂
        | some d =>
          match saveExn s₂ with
          | some e => .raised e s₂
          | none =>
            .ret true { s₂ with file := { s₂.file with
              tags := some (setTag d tagKey [genre]),
              content := s₂.file.content + 1 } }

/-- set_genre_tag (source lines 197-275).  Unsupported extensions return
False before the try block.  A PermissionError from the body is handled by
returning True in dry-run, otherwise chmod-ing the file and recursively
re-running the whole operation; os.chmod raising gives False.  `fuel` is the
Python recursion limit: when it runs out the recursive call raises
RecursionError, which the enclosing except catches, yielding False.  Any
other exception yields False.  The third component counts how many
permission-repair retries (recursive calls) were made. -/
def set_genre_tag (fuel : Nat) (genre : PyStr) (dry_run make_backup : Bool)
    (s : FsState) : Bool × FsState × Nat :=
  match lookupHandler s.file.ext with
  | none => (false, s, 0)
  | some tagKey =>
    match tryBody (s.file.ext == ".mp3") (s.file.ext == ".mp3" || s.file.ext == ".mp2")
        tagKey genre dry_run make_backup s with
    | .ret b s' => (b, s', 0)
    | .raised .other s' => (false, s', 0)
    | .raised .perm s' =>
      if dry_run then (true, s', 0)
      else if s'.io.chmodRaises then (false, s', 0)
      else
        match fuel with
        | 0 => (false, chmod664 s', 0)
        | fuel + 1 =>
          let r := set_genre_tag fuel genre dry_run make_backup (chmod664 s')
          (r.1, r.2.1, r.2.2 + 1)

/-- get_genre_from_path (source lines 171-184).  `underBase` is whether
path.relative_to(base_folder) succeeds (the raised ValueError is caught,
logged and turned into None); `relParts` are the resulting path segments.
An empty segment list gives None, else the first segment is normalized. -/
def get_genre_from_path (underBase : Bool) (relParts : List PyStr) : Option PyStr :=
  if underBase then
    match relParts with
    | [] => none
    | p :: _ => some (normalize_genre p)
  else none

/-- One element of files_and_args: the worker tuple
(file_path, base_folder, dry_run, make_backup, filter_genre) together with
the file's modelled state.  `pathName` is str(file_path). -/
structure WorkItem where
  fs : FsState
  underBase : Bool
  relParts : List PyStr
  pathName : PyStr
  dry_run : Bool
  make_backup : Bool
  filter_genre : Option PyStr
deriving DecidableEq

/-- The per-file result strings of process_file (source lines 283-293). -/
def msgGenreNotFound : PyStr := str "Genre not found"

def msgSkippedFilter : PyStr := str "Skipped (genre filter)"

def msgGenreSet (g : PyStr) : PyStr := str "Genre set to '" ++ g ++ str "'"

def msgAlreadyCorrectOrFailed : PyStr := str "Already correct or failed"

/-- process_file (source lines 277-293): resolve the genre (falsy values,
None or the empty string, give "Genre not found"), apply the optional
case-insensitive substring filter, then run set_genre_tag and report
"Genre set to '<genre>'" on True and "Already correct or failed" on False. -/
def process_file (fuel : Nat) (it : WorkItem) : PyStr × PyStr :=
  match get_genre_from_path it.underBase it.relParts with
  | none => (it.pathName, msgGenreNotFound)
  | some g =>
    if g = [] then (it.pathName, msgGenreNotFound)
    else if (match it.filter_genre with
             | some f => !f.isEmpty && !pyContains (pyLower f) (pyLower g)
             | none => false) then (it.pathName, msgSkippedFilter)
    else
      if (set_genre_tag fuel g it.dry_run it.make_backup it.fs).1 then
        (it.pathName, msgGenreSet g)
      else
        (it.pathName, msgAlreadyCorrectOrFailed)

/-- Contiguous slices files_and_args[i:i+batch_size] for i = 0, bs, 2*bs, …
with positive step bs = k+1 (source line 313-314). -/
def chunkPos (k : Nat) : List α → List (List α)
  | [] => []
  | a :: l => ((a :: l).take (k + 1)) :: chunkPos k ((a :: l).drop (k + 1))
termination_by l => l.length
decreasing_by simp [List.length_drop]; omega

/-- The batch decomposition of process_files_in_batches.  A zero batch size
makes Python's range(0, total, 0) raise ValueError, modelled as none. -/
def batchSlices (bs : Nat) (l : List α) : Option (List (List α)) :=
  match bs with
  | 0 => none
  | k + 1 => some (chunkPos k l)

/-- process_files_in_batches (source lines 303-335): each batch is mapped
through process_file by the pool and its results are consumed (logged, and
the progress bar ticked) before the next batch starts; the run's observable
outcome stream is the in-order concatenation of the per-batch results. -/
def process_files_in_batches (fuel : Nat) (items : List WorkItem) (bs : Nat) :
    Option (List (PyStr × PyStr)) :=
  (batchSlices bs items).map
    (fun chunks => (chunks.map (fun b => b.map (process_file fuel))).flatten)

/-! Lemmas about the string model. -/

theorem pyUpperChar_pyUpperChar (c : Nat) : pyUpperChar (pyUpperChar c) = pyUpperChar c := by
  simp only [pyUpperChar]; split_ifs <;> omega

theorem pyUpperChar_pyLowerChar (c : Nat) : pyUpperChar (pyLowerChar c) = pyUpperChar c := by
  simp only [pyUpperChar, pyLowerChar]; split_ifs <;> omega

theorem pyLowerChar_pyLowerChar (c : Nat) : pyLowerChar (pyLowerChar c) = pyLowerChar c := by
  simp only [pyLowerChar]; split_ifs <;> omega

theorem pyIsSpace_pyUpperChar (c : Nat) : pyIsSpace (pyUpperChar c) = pyIsSpace c := by
  simp only [pyIsSpace, pyUpperChar]
  split_ifs with h
  · rw [decide_eq_decide]; omega
  · rfl

theorem pyIsSpace_pyLowerChar (c : Nat) : pyIsSpace (pyLowerChar c) = pyIsSpace c := by
  simp only [pyIsSpace, pyLowerChar]
  split_ifs with h
  · rw [decide_eq_decide]; omega
  · rfl

/-- A word as produced by str.split(): nonempty and whitespace-free. -/
def goodTok (w : PyStr) : Prop := w ≠ [] ∧ ∀ c ∈ w, pyIsSpace c = false

instance (w : PyStr) : Decidable (goodTok w) :=
  decidable_of_iff (w ≠ [] ∧ ∀ c ∈ w, pyIsSpace c = false) Iff.rfl

theorem pyUpper_pyUpper (w : PyStr) : pyUpper (pyUpper w) = pyUpper w := by
  simp only [pyUpper, List.map_map]
  exact List.map_congr_left fun c _ => pyUpperChar_pyUpperChar c

theorem pyUpper_pyCapitalize (w : PyStr) : pyUpper (pyCapitalize w) = pyUpper w := by
  cases w with
  | nil => rfl
  | cons c rest =>
    simp only [pyCapitalize, pyUpper, List.map_cons, List.map_map,
      pyUpperChar_pyUpperChar]
    exact congrArg _ (List.map_congr_left fun c _ => pyUpperChar_pyLowerChar c)

theorem pyCapitalize_pyCapitalize (w : PyStr) :
    pyCapitalize (pyCapitalize w) = pyCapitalize w := by
  cases w with
  | nil => rfl
  | cons c rest =>
    simp only [pyCapitalize, pyUpperChar_pyUpperChar, List.map_map]
    exact congrArg _ (List.map_congr_left fun c _ => pyLowerChar_pyLowerChar c)

/-- The per-word normalization rule is idempotent. -/
theorem normWord_normWord (w : PyStr) : normWord (normWord w) = normWord w := by
  by_cases h : pyUpper w ∈ words_to_preserve
  · simp only [normWord, if_pos h, pyUpper_pyUpper, if_pos h]
  · simp only [normWord, if_neg h, pyUpper_pyCapitalize, if_neg h,
      pyCapitalize_pyCapitalize]

theorem goodTok_pyUpper {w : PyStr} (h : goodTok w) : goodTok (pyUpper w) := by
  obtain ⟨h1, h2⟩ := h
  refine ⟨by simpa [pyUpper] using h1, ?_⟩
  intro c hc
  simp only [pyUpper, List.mem_map] at hc
  obtain ⟨a, ha, rfl⟩ := hc
  rw [pyIsSpace_pyUpperChar]; exact h2 a ha

theorem goodTok_pyCapitalize {w : PyStr} (h : goodTok w) : goodTok (pyCapitalize w) := by
  obtain ⟨h1, h2⟩ := h
  cases w with
  | nil => exact absurd rfl h1
  | cons c rest =>
    refine ⟨by simp [pyCapitalize], ?_⟩
    intro a ha
    simp only [pyCapitalize, List.mem_cons, List.mem_map] at ha
    rcases ha with rfl | ⟨b, hb, rfl⟩
    · rw [pyIsSpace_pyUpperChar]; exact h2 c (List.mem_cons_self c rest)
    · rw [pyIsSpace_pyLowerChar]; exact h2 b (List.mem_cons_of_mem _ hb)

theorem goodTok_normWord {w : PyStr} (h : goodTok w) : goodTok (normWord w) := by
  by_cases hm : pyUpper w ∈ words_to_preserve
  · simpa only [normWord, if_pos hm] using goodTok_pyUpper h
  · simpa only [normWord, if_neg hm] using goodTok_pyCapitalize h

theorem pySplitAux_token (w : PyStr) (hw : ∀ c ∈ w, pyIsSpace c = false) :
    ∀ rest acc, pySplitAux (w ++ rest) acc = pySplitAux rest (w.reverse ++ acc) := by
  induction w with
  | nil => intro rest acc; rfl
  | cons c w' ih =>
    intro rest acc
    have hc : pyIsSpace c = false := hw c (List.mem_cons_self c w')
    have hw' : ∀ a ∈ w', pyIsSpace a = false := fun a ha => hw a (List.mem_cons_of_mem _ ha)
    rw [List.cons_append]
    simp only [pySplitAux, hc, Bool.false_eq_true, if_false]
    rw [ih hw' rest (c :: acc), List.reverse_cons, List.append_assoc,
      List.singleton_append]

theorem pySplitAux_allSpace (z : PyStr) (hz : ∀ c ∈ z, pyIsSpace c = true) :
    ∀ acc, pySplitAux z acc = pySplitAux [] acc := by
  induction z with
  | nil => intro acc; rfl
  | cons c z' ih =>
    intro acc
    have hc : pyIsSpace c = true := hz c (List.mem_cons_self c z')
    have hz' : ∀ a ∈ z', pyIsSpace a = true := fun a ha => hz a (List.mem_cons_of_mem _ ha)
    cases acc with
    | nil =>
      simp only [pySplitAux, hc, if_true]
      exact ih hz' []
    | cons a as =>
      simp only [pySplitAux, hc, if_true]
      rw [ih hz' []]
      rfl

theorem pySplitAux_append_space (z : PyStr) (hz : ∀ c ∈ z, pyIsSpace c = true) :
    ∀ s acc, pySplitAux (s ++ z) acc = pySplitAux s acc := by
  intro s
  induction s with
  | nil => intro acc; simpa using pySplitAux_allSpace z hz acc
  | cons c s' ih =>
    intro acc
    rw [List.cons_append]
    cases hc : pyIsSpace c with
    | true =>
      cases acc with
      | nil =>
        simp only [pySplitAux, hc, if_true]
        exact ih []
      | cons a as =>
        simp only [pySplitAux, hc, if_true]
        exact congrArg _ (ih [])
    | false =>
      simp only [pySplitAux, hc, Bool.false_eq_true, if_false]
      exact ih (c :: acc)

theorem pySplitAux_dropWhile (s : PyStr) :
    pySplitAux (s.dropWhile pyIsSpace) [] = pySplitAux s [] := by
  induction s with
  | nil => rfl
  | cons c s' ih =>
    cases hc : pyIsSpace c with
    | true =>
      rw [List.dropWhile_cons, if_pos (by simp [hc]), ih]
      simp only [pySplitAux, hc, if_true]
    | false =>
      rw [List.dropWhile_cons, if_neg (by simp [hc])]

/-- str.strip() does not change what str.split() produces. -/
theorem pySplit_pyStrip (s : PyStr) : pySplit (pyStrip s) = pySplit s := by
  unfold pySplit pyStrip
  set t := s.dropWhile pyIsSpace with ht
  have hdecomp : t.reverse = t.reverse.takeWhile pyIsSpace ++ t.reverse.dropWhile pyIsSpace :=
    (List.takeWhile_append_dropWhile (p := pyIsSpace) (l := t.reverse)).symm
  have ht2 : t = (t.reverse.dropWhile pyIsSpace).reverse ++ (t.reverse.takeWhile pyIsSpace).reverse := by
    conv_lhs => rw [← List.reverse_reverse t, hdecomp]
    rw [List.reverse_append]
  have hsp : ∀ c ∈ (t.reverse.takeWhile pyIsSpace).reverse, pyIsSpace c = true := by
    intro c hc
    rw [List.mem_reverse] at hc
    exact List.mem_takeWhile_imp hc
  calc pySplitAux (t.reverse.dropWhile pyIsSpace).reverse []
      = pySplitAux ((t.reverse.dropWhile pyIsSpace).reverse
          ++ (t.reverse.takeWhile pyIsSpace).reverse) [] :=
        (pySplitAux_append_space _ hsp _ []).symm
    _ = pySplitAux t [] := by rw [← ht2]
    _ = pySplitAux s [] := pySplitAux_dropWhile s

/-- str.split() is a left inverse of joining good tokens with single spaces. -/
theorem pySplit_pyJoinSp (ws : List PyStr) (hws : ∀ w ∈ ws, goodTok w) :
    pySplit (pyJoinSp ws) = ws := by
  induction ws with
  | nil => rfl
  | cons w ws' ih =>
    have hw : goodTok w := hws w (List.mem_cons_self w ws')
    have hws' : ∀ v ∈ ws', goodTok v := fun v hv => hws v (List.mem_cons_of_mem _ hv)
    obtain ⟨hne, hnsp⟩ := hw
    obtain ⟨a, as, hrev⟩ : ∃ a as, w.reverse = a :: as := by
      cases hr : w.reverse with
      | nil => exact absurd (by simpa using congrArg List.reverse hr) hne
      | cons a as => exact ⟨a, as, rfl⟩
    cases ws' with
    | nil =>
      show pySplitAux (pyJoinSp [w]) [] = [w]
      have hj : pyJoinSp [w] = w ++ [] := by simp [pyJoinSp]
      rw [hj, pySplitAux_token w hnsp [] [], List.append_nil, hrev]
      show [(a :: as).reverse] = [w]
      rw [← hrev, List.reverse_reverse]
    | cons w2 ws'' =>
      show pySplitAux (pyJoinSp (w :: w2 :: ws'')) [] = w :: w2 :: ws''
      have hj : pyJoinSp (w :: w2 :: ws'') = w ++ 32 :: pyJoinSp (w2 :: ws'') := rfl
      rw [hj, pySplitAux_token w hnsp _ [], List.append_nil, hrev]
      have h32 : pyIsSpace 32 = true := rfl
      simp only [pySplitAux, h32, if_true]
      rw [← hrev, List.reverse_reverse]
      exact congrArg _ (ih hws')

/-- Every token produced by str.split() is nonempty and whitespace-free. -/
theorem pySplitAux_goodTok (s : PyStr) :
    ∀ acc, (∀ c ∈ acc, pyIsSpace c = false) →
      ∀ w ∈ pySplitAux s acc, goodTok w := by
  induction s with
  | nil =>
    intro acc hacc w hw
    cases acc with
    | nil => simp [pySplitAux] at hw
    | cons a as =>
      simp only [pySplitAux, List.mem_singleton] at hw
      subst hw
      exact ⟨by simp, fun c hc => hacc c (List.mem_reverse.1 hc)⟩
  | cons c s' ih =>
    intro acc hacc w hw
    cases hc : pyIsSpace c with
    | true =>
      cases acc with
      | nil =>
        simp only [pySplitAux, hc, if_true] at hw
        exact ih [] (by simp) w hw
      | cons a as =>
        simp only [pySplitAux, hc, if_true] at hw
        rcases List.mem_cons.1 hw with rfl | hw'
        · exact ⟨by simp, fun x hx => hacc x (List.mem_reverse.1 hx)⟩
        · exact ih [] (by simp) w hw'
    | false =>
      simp only [pySplitAux, hc, Bool.false_eq_true, if_false] at hw
      refine ih (c :: acc) ?_ w hw
      intro x hx
      rcases List.mem_cons.1 hx with rfl | hx'
      · exact hc
      · exact hacc x hx'

theorem pySplit_goodTok (s : PyStr) : ∀ w ∈ pySplit s, goodTok w :=
  pySplitAux_goodTok s [] (by simp)

/-- normalize_genre of a single-space join of good tokens maps each token
through the preserve/capitalize rule and rejoins. -/
theorem normalize_genre_pyJoinSp (ws : List PyStr) (hws : ∀ w ∈ ws, goodTok w) :
    normalize_genre (pyJoinSp ws) = pyJoinSp (ws.map normWord) := by
  unfold normalize_genre
  rw [pySplit_pyStrip, pySplit_pyJoinSp ws hws]

/-- C5: genre normalization is idempotent: for every input string x,
normalize_genre (normalize_genre x) = normalize_genre x. -/
theorem normalize_genre_idempotent (x : PyStr) :
    normalize_genre (normalize_genre x) = normalize_genre x := by
  have hgood : ∀ w ∈ (pySplit (pyStrip x)).map normWord, goodTok w := by
    intro w hw
    obtain ⟨v, hv, rfl⟩ := List.mem_map.1 hw
    exact goodTok_normWord (pySplit_goodTok _ v hv)
  have h1 : normalize_genre x = pyJoinSp ((pySplit (pyStrip x)).map normWord) := rfl
  rw [h1, normalize_genre_pyJoinSp _ hgood, List.map_map]
  congr 1
  exact List.map_congr_left fun v _ => normWord_normWord v

/-- C6 counterexample: the token "DnB" is itself a member of the preserve
set, yet normalization does not map it to any fixed uppercase form: the
membership test compares word.upper() against the set, and the entry "DnB"
contains lowercase letters, so no word (including "DnB" itself) ever matches
it; "DnB" is capitalized to "Dnb", which differs both from the set entry and
from its uppercase form "DNB".  The same holds for "J-Pop" and "K-Pop". -/
theorem preserve_set_claim_false :
    str "DnB" ∈ words_to_preserve
    ∧ normalize_genre (str "DnB") = str "Dnb"
    ∧ normalize_genre (str "DnB") ≠ str "DnB"
    ∧ normalize_genre (str "DnB") ≠ pyUpper (str "DnB") := by decide

/-- C6 amended: a token is preserved if and only if its upper-cased form is
literally in the preserve set, in which case the output is that upper-cased
form regardless of input casing; every other token is capitalized, and
tokens are rejoined with single spaces.  In particular "uk garage" becomes
"UK Garage", while the set members containing lowercase letters ("DnB",
"J-Pop", "K-Pop") never match and such tokens are capitalized instead. -/
theorem preserve_set_amended (ws : List PyStr) (hws : ∀ w ∈ ws, goodTok w) :
    normalize_genre (pyJoinSp ws) = pyJoinSp (ws.map
      (fun w => if pyUpper w ∈ words_to_preserve then pyUpper w else pyCapitalize w))
    ∧ normalize_genre (str "uk garage") = str "UK Garage"
    ∧ normalize_genre (str "DnB") = str "Dnb" := by
  refine ⟨?_, by decide, by decide⟩
  simpa only [normWord] using normalize_genre_pyJoinSp ws hws

/-- Witness for preserve_set_amended at the concrete token list
["uk", "garage"]. -/
theorem preserve_set_amended_witness :
    normalize_genre (pyJoinSp [str "uk", str "garage"]) = pyJoinSp ([str "uk", str "garage"].map
      (fun w => if pyUpper w ∈ words_to_preserve then pyUpper w else pyCapitalize w))
    ∧ normalize_genre (str "uk garage") = str "UK Garage"
    ∧ normalize_genre (str "DnB") = str "Dnb" :=
  preserve_set_amended [str "uk", str "garage"] (by decide)

/-! Structural lemmas about the filesystem operations. -/

theorem backup_file_file (s : FsState) : (backup_file s).2.file = s.file := by
  simp only [backup_file]; split_ifs <;> rfl

theorem backup_file_io (s : FsState) : (backup_file s).2.io = s.io := by
  simp only [backup_file]; split_ifs <;> rfl

theorem lookupTag_setTag (d : List (String × List PyStr)) (k : String) (v : List PyStr) :
    lookupTag (setTag d k v) k = some v := by
  induction d with
  | nil => simp [setTag, lookupTag]
  | cons p rest ih =>
    obtain ⟨k', v'⟩ := p
    by_cases h : k' = k
    · simp [setTag, lookupTag, h]
    · simp [setTag, lookupTag, h, ih]

/-- When the container opens cleanly and holds a tag dictionary, the open
phase succeeds without touching the file, for every handler class. -/
theorem openPhase_clean (dr : Bool) (s : FsState) (d : List (String × List PyStr))
    (hre : s.file.readable = true) (hacl : s.io.aclDenied = false)
    (hcor : s.io.openCorrupt = false) (ht : s.file.tags = some d) :
    ∀ im nt, openPhase im nt dr s = .opened s := by
  have hopen : ∀ nt, openExn nt s = none := by
    intro nt; simp [openExn, hre, hacl, hcor, ht]
  intro im nt
  cases im <;> simp [openPhase, hopen]

/-- C1 part 1 helper: if the first element stored under the tag key equals
the target genre exactly, set_genre_tag returns False and the state is
untouched (no write, no backup, no chmod, no retry). -/
theorem set_genre_tag_already (fuel : Nat) (g : PyStr) (dr mb : Bool) (s : FsState)
    (key : String) (d : List (String × List PyStr)) (rest : List PyStr)
    (hre : s.file.readable = true) (hacl : s.io.aclDenied = false)
    (hcor : s.io.openCorrupt = false)
    (hk : lookupHandler s.file.ext = some key)
    (ht : s.file.tags = some d)
    (hv : lookupTag d key = some (g :: rest)) :
    set_genre_tag fuel g dr mb s = (false, s, 0) := by
  have hcur : getCurrent s.file.tags key = .ok (some g) := by
    rw [ht]; simp [getCurrent, readCurrent, hv]
  have hbody : ∀ im nt, tryBody im nt key g dr mb s = .ret false s := by
    intro im nt
    simp [tryBody, openPhase_clean dr s d hre hacl hcor ht, hcur]
  simp [set_genre_tag, hk, hbody]

/-- Helper: the backup step (or its absence) leaves the file and flags alone. -/
theorem backedUp_file (mb : Bool) (s : FsState) :
    (if mb then (backup_file s).2 else s).file = s.file := by
  cases mb <;> simp [backup_file_file]

theorem backedUp_io (mb : Bool) (s : FsState) :
    (if mb then (backup_file s).2 else s).io = s.io := by
  cases mb <;> simp [backup_file_io]

/-- The state written by the successful write path: tag stored under the key,
content bumped once, on top of the post-backup-step state. -/
def writtenState (mb : Bool) (s : FsState) (d : List (String × List PyStr))
    (key : String) (g : PyStr) : FsState :=
  { (if mb then (backup_file s).2 else s) with
    file := { s.file with
      tags := some (setTag d key [g]),
      content := s.file.content + 1 } }

/-- Update path: clean environment, a tag dictionary present, and a current
value different from the target: the tag is written through the backup-step
state, content is bumped once, and no retry happens. -/
theorem set_genre_tag_update (fuel : Nat) (g : PyStr) (mb : Bool) (s : FsState)
    (key : String) (d : List (String × List PyStr)) (c : Option PyStr)
    (hre : s.file.readable = true) (hwr : s.file.writable = true)
    (hacl : s.io.aclDenied = false) (hcor : s.io.openCorrupt = false)
    (hsave : s.io.saveFails = false)
    (hk : lookupHandler s.file.ext = some key)
    (ht : s.file.tags = some d)
    (hc : readCurrent d key = .ok c) (hne : c ≠ some g) :
    set_genre_tag fuel g false mb s = (true, writtenState mb s d key g, 0) := by
  have hcur : getCurrent s.file.tags key = .ok c := by
    rw [ht]; simpa [getCurrent] using hc
  have hs2t : (if mb then (backup_file s).2 else s).file.tags = some d := by
    rw [backedUp_file, ht]
  have hsx : saveExn (if mb then (backup_file s).2 else s) = none := by
    simp [saveExn, backedUp_file, backedUp_io, hwr, hacl, hsave]
  have hbody : ∀ im nt, tryBody im nt key g false mb s =
      .ret true (writtenState mb s d key g) := by
    intro im nt
    simp only [tryBody, openPhase_clean false s d hre hacl hcor ht, hcur]
    rw [if_neg hne]
    simp only [Bool.false_eq_true, if_false]
    simp only [hs2t, hsx]
    simp [writtenState, backedUp_file]
  simp [set_genre_tag, hk, hbody]

/-- An empty stored value list makes the [0] subscript raise IndexError,
which the generic handler converts into False with no state change. -/
theorem set_genre_tag_indexError (fuel : Nat) (g : PyStr) (dr mb : Bool) (s : FsState)
    (key : String) (d : List (String × List PyStr))
    (hre : s.file.readable = true) (hacl : s.io.aclDenied = false)
    (hcor : s.io.openCorrupt = false)
    (hk : lookupHandler s.file.ext = some key)
    (ht : s.file.tags = some d)
    (hc : readCurrent d key = .error ()) :
    set_genre_tag fuel g dr mb s = (false, s, 0) := by
  have hcur : getCurrent s.file.tags key = .error () := by
    rw [ht]; simpa [getCurrent] using hc
  have hbody : ∀ im nt, tryBody im nt key g dr mb s = .raised .other s := by
    intro im nt
    simp only [tryBody, openPhase_clean dr s d hre hacl hcor ht, hcur]
  simp [set_genre_tag, hk, hbody]

theorem writtenState_ext (mb : Bool) (s : FsState) (d : List (String × List PyStr))
    (key : String) (g : PyStr) : (writtenState mb s d key g).file.ext = s.file.ext := rfl

theorem writtenState_tags (mb : Bool) (s : FsState) (d : List (String × List PyStr))
    (key : String) (g : PyStr) :
    (writtenState mb s d key g).file.tags = some (setTag d key [g]) := rfl

theorem writtenState_readable (mb : Bool) (s : FsState) (d : List (String × List PyStr))
    (key : String) (g : PyStr) :
    (writtenState mb s d key g).file.readable = s.file.readable := rfl

theorem writtenState_io (mb : Bool) (s : FsState) (d : List (String × List PyStr))
    (key : String) (g : PyStr) : (writtenState mb s d key g).io = s.io :=
  backedUp_io mb s

theorem readCurrent_ok_some {d : List (String × List PyStr)} {k : String} {v : PyStr}
    (h : readCurrent d k = .ok (some v)) :
    ∃ rest, lookupTag d k = some (v :: rest) := by
  unfold readCurrent at h
  cases hl : lookupTag d k with
  | none => rw [hl] at h; simp at h
  | some l =>
    cases l with
    | nil => rw [hl] at h; simp at h
    | cons a t =>
      rw [hl] at h
      simp only [Except.ok.injEq, Option.some.injEq] at h
      exact ⟨t, by rw [h]⟩

/-- The ".mp3" special case on a file with no ID3 block (clean environment):
EasyID3 raises, an empty tag block is written and saved, the file is
re-opened, the missing current value differs from the target, and the write
path runs on the re-initialized file. -/
theorem set_genre_tag_mp3_noTags (fuel : Nat) (g : PyStr) (mb : Bool) (s : FsState)
    (hre : s.file.readable = true) (hwr : s.file.writable = true)
    (hacl : s.io.aclDenied = false) (hcor : s.io.openCorrupt = false)
    (hsave : s.io.saveFails = false)
    (hext : s.file.ext = ".mp3") (ht : s.file.tags = none) :
    set_genre_tag fuel g false mb s =
      (true, writtenState mb (addTagsSaved s) [] "genre" g, 0) := by
  have hopT : openExn true s = some .other := by
    simp [openExn, hre, hacl, hcor, ht]
  have hopF : openExn false s = none := by
    simp [openExn, hre, hacl, hcor]
  have hsx : saveExn s = none := by
    simp [saveExn, hwr, hacl, hsave]
  have hop : ∀ nt, openPhase true nt false s = .opened (addTagsSaved s) := by
    intro nt
    simp [openPhase, hopT, hopF, hsx]
  have hbody : ∀ nt, tryBody true nt "genre" g false mb s =
      .ret true (writtenState mb (addTagsSaved s) [] "genre" g) := by
    intro nt
    have h1 : getCurrent (addTagsSaved s).file.tags "genre" = .ok none := by
      simp [addTagsSaved, getCurrent, readCurrent, lookupTag]
    have hs2t : (if mb then (backup_file (addTagsSaved s)).2 else addTagsSaved s).file.tags
        = some [] := by
      rw [backedUp_file]; simp [addTagsSaved]
    have hsx2 : saveExn (if mb then (backup_file (addTagsSaved s)).2 else addTagsSaved s)
        = none := by
      simp [saveExn, backedUp_file, backedUp_io, addTagsSaved, hwr, hacl, hsave]
    simp only [tryBody, hop, h1]
    rw [if_neg (by simp)]
    simp only [Bool.false_eq_true, if_false]
    simp only [hs2t, hsx2]
    simp [writtenState, backedUp_file]
  have him : (s.file.ext == ".mp3") = true := by simp [hext]
  have hk : lookupHandler s.file.ext = some "genre" := by rw [hext]; rfl
  simp [set_genre_tag, hk, him, hbody]

/-- A non-".mp3" file with no tag dictionary, clean environment: the run
returns False (for ".mp2" the EasyID3 open raises ID3NoHeaderError, for any
other format the item assignment on tags None raises), with no retry. -/
theorem set_genre_tag_noTags_notMp3 (fuel : Nat) (g : PyStr) (mb : Bool) (s : FsState)
    (key : String)
    (hre : s.file.readable = true) (hacl : s.io.aclDenied = false)
    (hcor : s.io.openCorrupt = false)
    (hext : s.file.ext ≠ ".mp3") (ht : s.file.tags = none)
    (hk : lookupHandler s.file.ext = some key) :
    (set_genre_tag fuel g false mb s).1 = false := by
  have him : (s.file.ext == ".mp3") = false := by simp [hext]
  by_cases h2 : s.file.ext = ".mp2"
  · have hnt : (s.file.ext == ".mp2") = true := by simp [h2]
    have hop : openExn true s = some .other := by
      simp [openExn, hre, hacl, hcor, ht]
    have hbody : tryBody false true key g false mb s = .raised .other s := by
      simp [tryBody, openPhase, hop]
    simp [set_genre_tag, hk, him, hnt, hbody]
  · have hnt : (s.file.ext == ".mp2") = false := by simp [h2]
    have hop : openExn false s = none := by
      simp [openExn, hre, hacl, hcor]
    have hbody : tryBody false false key g false mb s =
        .raised .other (if mb then (backup_file s).2 else s) := by
      have hcur : getCurrent s.file.tags key = .ok none := by rw [ht]; rfl
      have hs2t : (if mb then (backup_file s).2 else s).file.tags = none := by
        rw [backedUp_file, ht]
      simp only [tryBody, openPhase, hop]
      simp only [Bool.false_eq_true, if_false, hcur]
      rw [if_neg (by simp)]
      simp only [hs2t]
    simp [set_genre_tag, hk, him, hnt, hbody]

/-- C1: when the first element stored under the descriptor's tag key equals
the target genre exactly (case-sensitive string equality), set_genre_tag
returns False ("already correct") and performs no write at all — the state
is returned unchanged; and after any successful first update (clean
environment, not dry-run), a second run with the same target genre returns
False with the state unchanged, so the second run performs zero writes. -/
theorem update_already_then_idempotent :
    (∀ (fuel : Nat) (g : PyStr) (dr mb : Bool) (s : FsState) (key : String)
       (d : List (String × List PyStr)) (rest : List PyStr),
       s.file.readable = true → s.io.aclDenied = false → s.io.openCorrupt = false →
       lookupHandler s.file.ext = some key → s.file.tags = some d →
       lookupTag d key = some (g :: rest) →
       set_genre_tag fuel g dr mb s = (false, s, 0))
    ∧ (∀ (fuel fuel' : Nat) (g : PyStr) (mb dr' mb' : Bool) (s : FsState) (key : String),
       s.file.readable = true → s.file.writable = true →
       s.io.aclDenied = false → s.io.openCorrupt = false → s.io.saveFails = false →
       lookupHandler s.file.ext = some key →
       (set_genre_tag fuel g false mb s).1 = true →
       set_genre_tag fuel' g dr' mb' (set_genre_tag fuel g false mb s).2.1
         = (false, (set_genre_tag fuel g false mb s).2.1, 0)) := by
  constructor
  · intro fuel g dr mb s key d rest hre hacl hcor hk ht hv
    exact set_genre_tag_already fuel g dr mb s key d rest hre hacl hcor hk ht hv
  · intro fuel fuel' g mb dr' mb' s key hre hwr hacl hcor hsave hk hres
    cases ht : s.file.tags with
    | some d =>
      cases hrc : readCurrent d key with
      | error u =>
        cases u
        rw [set_genre_tag_indexError fuel g false mb s key d hre hacl hcor hk ht hrc] at hres
        exact Bool.noConfusion hres
      | ok c =>
        by_cases hc : c = some g
        · obtain ⟨rest, hv⟩ := readCurrent_ok_some (hc ▸ hrc)
          rw [set_genre_tag_already fuel g false mb s key d rest hre hacl hcor hk ht hv] at hres
          exact Bool.noConfusion hres
        · rw [set_genre_tag_update fuel g mb s key d c hre hwr hacl hcor hsave hk ht hrc hc]
          refine set_genre_tag_already fuel' g dr' mb' _ key (setTag d key [g]) []
            hre ?_ ?_ hk rfl (lookupTag_setTag d key [g])
          · show (writtenState mb s d key g).io.aclDenied = false
            rw [writtenState_io]; exact hacl
          · show (writtenState mb s d key g).io.openCorrupt = false
            rw [writtenState_io]; exact hcor
    | none =>
      by_cases hm : s.file.ext = ".mp3"
      · have h0 : lookupHandler ".mp3" = some "genre" := by decide
        rw [hm, h0] at hk
        injection hk with hkey
        subst hkey
        rw [set_genre_tag_mp3_noTags fuel g mb s hre hwr hacl hcor hsave hm ht]
        refine set_genre_tag_already fuel' g dr' mb' _ "genre" (setTag [] "genre" [g]) []
          hre ?_ ?_ ?_ rfl (lookupTag_setTag [] "genre" [g])
        · rw [writtenState_io]; exact hacl
        · rw [writtenState_io]; exact hcor
        · rw [writtenState_ext]; exact hm ▸ h0
      · have hfalse := set_genre_tag_noTags_notMp3 fuel g mb s key hre hacl hcor hm ht hk
        rw [hres] at hfalse
        exact Bool.noConfusion hfalse

/-! Where permission errors can and cannot come from. -/

theorem openExn_no_perm (nt : Bool) (s : FsState) (e : Exn)
    (hre : s.file.readable = true) (hacl : s.io.aclDenied = false)
    (h : openExn nt s = some e) : e = .other := by
  simp only [openExn, hre, hacl, Bool.not_true, Bool.or_false, Bool.false_eq_true,
    if_false] at h
  split at h
  · simp only [Option.some.injEq] at h; exact h.symm
  · split at h
    · simp only [Option.some.injEq] at h; exact h.symm
    · exact Option.noConfusion h

theorem saveExn_no_perm (s : FsState) (e : Exn)
    (hwr : s.file.writable = true) (hacl : s.io.aclDenied = false)
    (h : saveExn s = some e) : e = .other := by
  simp only [saveExn, hwr, hacl, Bool.not_true, Bool.or_false, Bool.false_eq_true,
    if_false] at h
  split at h
  · simp only [Option.some.injEq] at h; exact h.symm
  · exact Option.noConfusion h

theorem openPhase_raised_inv (im nt dr : Bool) (s s' : FsState) (e : Exn)
    (h : openPhase im nt dr s = .raised e s') : s' = s := by
  unfold openPhase at h
  cases im with
  | false =>
    simp only [Bool.false_eq_true, if_false] at h
    cases hoe : openExn nt s with
    | none => rw [hoe] at h; exact OpenResult.noConfusion h
    | some e0 => rw [hoe] at h; cases h; rfl
  | true =>
    simp only [if_true] at h
    cases hoe : openExn true s with
    | none => rw [hoe] at h; exact OpenResult.noConfusion h
    | some e0 =>
      rw [hoe] at h
      cases dr with
      | true => simp only [if_true] at h; exact OpenResult.noConfusion h
      | false =>
        simp only [Bool.false_eq_true, if_false] at h
        cases hof : openExn false s with
        | some e1 => rw [hof] at h; cases h; rfl
        | none =>
          rw [hof] at h
          cases hsv : saveExn s with
          | some e1 => rw [hsv] at h; cases h; rfl
          | none => rw [hsv] at h; exact OpenResult.noConfusion h

theorem openPhase_opened_inv (im nt dr : Bool) (s s1 : FsState)
    (h : openPhase im nt dr s = .opened s1) : s1 = s ∨ s1 = addTagsSaved s := by
  unfold openPhase at h
  cases im with
  | false =>
    simp only [Bool.false_eq_true, if_false] at h
    cases hoe : openExn nt s with
    | none => rw [hoe] at h; cases h; exact Or.inl rfl
    | some e0 => rw [hoe] at h; exact OpenResult.noConfusion h
  | true =>
    simp only [if_true] at h
    cases hoe : openExn true s with
    | none => rw [hoe] at h; cases h; exact Or.inl rfl
    | some e0 =>
      rw [hoe] at h
      cases dr with
      | true => simp only [if_true] at h; exact OpenResult.noConfusion h
      | false =>
        simp only [Bool.false_eq_true, if_false] at h
        cases hof : openExn false s with
        | some e1 => rw [hof] at h; exact OpenResult.noConfusion h
        | none =>
          rw [hof] at h
          cases hsv : saveExn s with
          | some e1 => rw [hsv] at h; exact OpenResult.noConfusion h
          | none => rw [hsv] at h; cases h; exact Or.inr rfl

theorem openPhase_no_perm (im nt dr : Bool) (s s' : FsState) (e : Exn)
    (hre : s.file.readable = true) (hwr : s.file.writable = true)
    (hacl : s.io.aclDenied = false)
    (h : openPhase im nt dr s = .raised e s') : e = .other := by
  unfold openPhase at h
  cases im with
  | false =>
    simp only [Bool.false_eq_true, if_false] at h
    cases hoe : openExn nt s with
    | none => rw [hoe] at h; exact OpenResult.noConfusion h
    | some e0 =>
      rw [hoe] at h; cases h
      exact openExn_no_perm nt s e hre hacl hoe
  | true =>
    simp only [if_true] at h
    cases hoe : openExn true s with
    | none => rw [hoe] at h; exact OpenResult.noConfusion h
    | some e0 =>
      rw [hoe] at h
      cases dr with
      | true => simp only [if_true] at h; exact OpenResult.noConfusion h
      | false =>
        simp only [Bool.false_eq_true, if_false] at h
        cases hof : openExn false s with
        | some e1 =>
          rw [hof] at h; cases h
          exact openExn_no_perm false s e hre hacl hof
        | none =>
          rw [hof] at h
          cases hsv : saveExn s with
          | some e1 =>
            rw [hsv] at h; cases h
            exact saveExn_no_perm s e hwr hacl hsv
          | none => rw [hsv] at h; exact OpenResult.noConfusion h

theorem opened_io (im nt dr : Bool) (s s1 : FsState)
    (h : openPhase im nt dr s = .opened s1) :
    s1.io = s.io ∧ s1.file.readable = s.file.readable
      ∧ s1.file.writable = s.file.writable := by
  rcases openPhase_opened_inv im nt dr s s1 h with rfl | rfl
  · exact ⟨rfl, rfl, rfl⟩
  · exact ⟨rfl, rfl, rfl⟩

/-- On a file whose own permission bits allow read and write and with no
mode-independent denial, the try body never raises PermissionError. -/
theorem tryBody_no_perm (im nt : Bool) (key : String) (g : PyStr) (dr mb : Bool)
    (s s' : FsState)
    (hre : s.file.readable = true) (hwr : s.file.writable = true)
    (hacl : s.io.aclDenied = false)
    (h : tryBody im nt key g dr mb s = .raised .perm s') : False := by
  unfold tryBody at h
  cases hop : openPhase im nt dr s with
  | raised e s1 =>
    rw [hop] at h
    cases h
    exact Exn.noConfusion (openPhase_no_perm im nt dr s s' .perm hre hwr hacl hop)
  | earlyReturn b => rw [hop] at h; exact BodyResult.noConfusion h
  | opened s1 =>
    rw [hop] at h
    simp only at h
    obtain ⟨hio1, hre1, hwr1⟩ := opened_io im nt dr s s1 hop
    cases hgc : getCurrent s1.file.tags key with
    | error u => rw [hgc] at h; cases h
    | ok c =>
      rw [hgc] at h
      simp only at h
      by_cases hcg : c = some g
      · rw [if_pos hcg] at h; exact BodyResult.noConfusion h
      · rw [if_neg hcg] at h
        cases dr with
        | true => simp only [if_true] at h; exact BodyResult.noConfusion h
        | false =>
          simp only [Bool.false_eq_true, if_false] at h
          cases ht2 : (if mb then (backup_file s1).2 else s1).file.tags with
          | none => rw [ht2] at h; cases h
          | some d =>
            rw [ht2] at h
            simp only at h
            cases hsv : saveExn (if mb then (backup_file s1).2 else s1) with
            | some e1 =>
              rw [hsv] at h
              cases h
              have hw2 : (if mb then (backup_file s1).2 else s1).file.writable = true := by
                rw [backedUp_file, hwr1]; exact hwr
              have ha2 : (if mb then (backup_file s1).2 else s1).io.aclDenied = false := by
                rw [backedUp_io, hio1]; exact hacl
              exact Exn.noConfusion (saveExn_no_perm _ .perm hw2 ha2 hsv)
            | none => rw [hsv] at h; exact BodyResult.noConfusion h

/-- Whatever the try body raises, the external flags of the state at the
raise point are those of the input (nothing in the body touches them). -/
theorem tryBody_raised_io (im nt : Bool) (key : String) (g : PyStr) (dr mb : Bool)
    (s s' : FsState) (e : Exn)
    (h : tryBody im nt key g dr mb s = .raised e s') : s'.io = s.io := by
  unfold tryBody at h
  cases hop : openPhase im nt dr s with
  | raised e0 s1 =>
    rw [hop] at h
    cases h
    rw [openPhase_raised_inv im nt dr s s' e hop]
  | earlyReturn b => rw [hop] at h; exact BodyResult.noConfusion h
  | opened s1 =>
    rw [hop] at h
    simp only at h
    have hio1 : s1.io = s.io := (opened_io im nt dr s s1 hop).1
    cases hgc : getCurrent s1.file.tags key with
    | error u => rw [hgc] at h; cases h; exact hio1
    | ok c =>
      rw [hgc] at h
      simp only at h
      by_cases hcg : c = some g
      · rw [if_pos hcg] at h; exact BodyResult.noConfusion h
      · rw [if_neg hcg] at h
        cases dr with
        | true => simp only [if_true] at h; exact BodyResult.noConfusion h
        | false =>
          simp only [Bool.false_eq_true, if_false] at h
          cases ht2 : (if mb then (backup_file s1).2 else s1).file.tags with
          | none =>
            rw [ht2] at h; cases h
            rw [backedUp_io]; exact hio1
          | some d =>
            rw [ht2] at h
            simp only at h
            cases hsv : saveExn (if mb then (backup_file s1).2 else s1) with
            | some e1 =>
              rw [hsv] at h; cases h
              rw [backedUp_io]; exact hio1
            | none => rw [hsv] at h; exact BodyResult.noConfusion h

/-- With working permission bits and no mode-independent denial, the
permission handler is never entered: zero retries. -/
theorem set_genre_tag_no_retry (fuel : Nat) (g : PyStr) (dr mb : Bool) (s : FsState)
    (hre : s.file.readable = true) (hwr : s.file.writable = true)
    (hacl : s.io.aclDenied = false) :
    (set_genre_tag fuel g dr mb s).2.2 = 0 := by
  cases hk : lookupHandler s.file.ext with
  | none => simp [set_genre_tag, hk]
  | some key =>
    cases htb : tryBody (s.file.ext == ".mp3")
        (s.file.ext == ".mp3" || s.file.ext == ".mp2") key g dr mb s with
    | ret b s' => simp [set_genre_tag, hk, htb]
    | raised e s' =>
      cases e with
      | other => simp [set_genre_tag, hk, htb]
      | perm => exact (tryBody_no_perm _ _ key g dr mb s s' hre hwr hacl htb).elim

/-- Once the mode-independent denial is absent, at most one permission
retry ever happens: the chmod hands the recursive call a state whose
permission bits are fully repaired, so the retry cannot raise again. -/
theorem set_genre_tag_retries_le_one (fuel : Nat) (g : PyStr) (dr mb : Bool)
    (s : FsState) (hacl : s.io.aclDenied = false) :
    (set_genre_tag fuel g dr mb s).2.2 ≤ 1 := by
  cases hk : lookupHandler s.file.ext with
  | none => simp [set_genre_tag, hk]
  | some key =>
    cases htb : tryBody (s.file.ext == ".mp3")
        (s.file.ext == ".mp3" || s.file.ext == ".mp2") key g dr mb s with
    | ret b s' => simp [set_genre_tag, hk, htb]
    | raised e s' =>
      cases e with
      | other => simp [set_genre_tag, hk, htb]
      | perm =>
        have hio : s'.io = s.io := tryBody_raised_io _ _ key g dr mb s s' .perm htb
        cases dr with
        | true => simp [set_genre_tag, hk, htb]
        | false =>
          cases hcm : s'.io.chmodRaises with
          | true => simp [set_genre_tag, hk, htb, hcm]
          | false =>
            cases fuel with
            | zero => simp [set_genre_tag, hk, htb, hcm]
            | succ n =>
              have hz : (set_genre_tag n g false mb (chmod664 s')).2.2 = 0 :=
                set_genre_tag_no_retry n g false mb (chmod664 s') rfl rfl
                  (by show s'.io.aclDenied = false; rw [hio]; exact hacl)
              have heq : (set_genre_tag (n + 1) g false mb s).2.2 =
                  (set_genre_tag n g false mb (chmod664 s')).2.2 + 1 := by
                conv_lhs => rw [set_genre_tag.eq_def]
                simp only [hk, htb, hcm, Bool.false_eq_true, if_false]
              rw [heq, hz]

/-- Under a denial that survives chmod (ACL mask, directory permissions),
every attempt re-raises PermissionError: each level chmods and recurses
again, so the retries equal the whole recursion budget, which refutes
"retries exactly once"; the eventual RecursionError is swallowed into
False. -/
theorem tryBody_acl (im nt : Bool) (key : String) (g : PyStr) (mb : Bool)
    (s : FsState) (hacl : s.io.aclDenied = true) :
    tryBody im nt key g false mb s = .raised .perm s := by
  have hop : ∀ b, openExn b s = some Exn.perm := by
    intro b; simp [openExn, hacl]
  cases im <;> simp [tryBody, openPhase, hop]

theorem set_genre_tag_acl_unbounded (fuel : Nat) (g : PyStr) (mb : Bool)
    (s : FsState) (key : String) (hk : lookupHandler s.file.ext = some key)
    (hacl : s.io.aclDenied = true) (hcm : s.io.chmodRaises = false) :
    set_genre_tag fuel g false mb s = (false, chmod664 s, fuel) := by
  induction fuel generalizing s with
  | zero =>
    simp [set_genre_tag, hk, tryBody_acl _ _ key g mb s hacl, hcm]
  | succ n ih =>
    have hrec := ih (chmod664 s) hk hacl hcm
    simp only [set_genre_tag, hk, tryBody_acl _ _ key g mb s hacl, hcm,
      Bool.false_eq_true, if_false, hrec]
    rfl

/-! Concrete fixtures for witnesses and counterexamples. -/

/-- Flags of a fully healthy environment. -/
def cleanIO : IOFlags :=
  { aclDenied := false, openCorrupt := false, saveFails := false,
    copyFails := false, chmodRaises := false }

/-- A healthy FLAC file whose genre tag already holds "Rock". -/
def flacRock : FsState :=
  { file := { ext := ".flac", tags := some [("genre", [str "Rock"])], content := 0,
              readable := true, writable := true },
    backup := none, io := cleanIO }

/-- The same file behind a permission denial that chmod cannot clear. -/
def aclState : FsState :=
  { flacRock with io := { cleanIO with aclDenied := true } }

/-- The same file unreadable, with os.chmod itself failing. -/
def chmodFailState : FsState :=
  { file := { flacRock.file with readable := false },
    backup := none, io := { cleanIO with chmodRaises := true } }

/-- Witness for update_already_then_idempotent at the concrete FLAC file:
a run targeting "Rock" is a no-op, and after a run targeting "Pop" a second
"Pop" run is a no-op. -/
theorem update_already_then_idempotent_witness :
    set_genre_tag 3 (str "Rock") false false flacRock = (false, flacRock, 0)
    ∧ set_genre_tag 2 (str "Pop") true false
        (set_genre_tag 3 (str "Pop") false false flacRock).2.1
      = (false, (set_genre_tag 3 (str "Pop") false false flacRock).2.1, 0) :=
  ⟨update_already_then_idempotent.1 3 (str "Rock") false false flacRock "genre"
      [("genre", [str "Rock"])] [] rfl rfl rfl (by decide) rfl (by decide),
   update_already_then_idempotent.2 3 2 (str "Pop") false true false flacRock "genre"
      rfl rfl rfl rfl rfl (by decide) (by decide)⟩

/-- C2 counterexample: on a file whose permission failure is not cleared by
chmod-ing the file (the chmod itself succeeding), the recursive permission
handler retries once per level until the whole recursion budget (here 10)
is spent — not "exactly once" — and the final result is False. -/
theorem permission_retry_not_once :
    (set_genre_tag 10 (str "Pop") false false aclState).2.2 = 10
    ∧ (set_genre_tag 10 (str "Pop") false false aclState).1 = false := by decide

/-- C2 amended: (1) whenever the permission failure is clearable by the
file-mode chmod (no mode-independent denial), the retry happens at most
once; (2) if os.chmod itself raises, the result is False with no retry;
(3) if the denial survives a successful chmod, the operation keeps
retrying once per recursion level until the recursion budget is exhausted
and then returns False. -/
theorem permission_retry_amended :
    (∀ (fuel : Nat) (g : PyStr) (dr mb : Bool) (s : FsState),
       s.io.aclDenied = false → (set_genre_tag fuel g dr mb s).2.2 ≤ 1)
    ∧ (∀ (fuel : Nat) (g : PyStr) (mb : Bool) (s s' : FsState) (key : String),
       lookupHandler s.file.ext = some key →
       tryBody (s.file.ext == ".mp3") (s.file.ext == ".mp3" || s.file.ext == ".mp2")
         key g false mb s = .raised .perm s' →
       s'.io.chmodRaises = true →
       set_genre_tag fuel g false mb s = (false, s', 0))
    ∧ (∀ (fuel : Nat) (g : PyStr) (mb : Bool) (s : FsState) (key : String),
       lookupHandler s.file.ext = some key →
       s.io.aclDenied = true → s.io.chmodRaises = false →
       set_genre_tag fuel g false mb s = (false, chmod664 s, fuel)) := by
  refine ⟨?_, ?_, ?_⟩
  · intro fuel g dr mb s hacl
    exact set_genre_tag_retries_le_one fuel g dr mb s hacl
  · intro fuel g mb s s' key hk htb hcm
    simp [set_genre_tag, hk, htb, hcm]
  · intro fuel g mb s key hk hacl hcm
    exact set_genre_tag_acl_unbounded fuel g mb s key hk hacl hcm

/-- Witness for permission_retry_amended at concrete states. -/
theorem permission_retry_amended_witness :
    (set_genre_tag 7 (str "Pop") false false flacRock).2.2 ≤ 1
    ∧ set_genre_tag 7 (str "Pop") false false chmodFailState = (false, chmodFailState, 0)
    ∧ set_genre_tag 7 (str "Pop") false false aclState = (false, chmod664 aclState, 7) :=
  ⟨permission_retry_amended.1 7 (str "Pop") false false flacRock rfl,
   permission_retry_amended.2.1 7 (str "Pop") false chmodFailState chmodFailState "genre"
     (by decide) (by decide) rfl,
   permission_retry_amended.2.2 7 (str "Pop") false aclState "genre" (by decide) rfl rfl⟩

/-- In dry-run the open phase never writes: it either opens the state
unchanged, returns the early "would add tags" True, or raises at the
unchanged state. -/
theorem openPhase_dry (im nt : Bool) (s : FsState) :
    openPhase im nt true s = .opened s ∨ openPhase im nt true s = .earlyReturn true
      ∨ ∃ e, openPhase im nt true s = .raised e s := by
  cases im with
  | false =>
    cases hoe : openExn nt s with
    | none => exact Or.inl (by simp [openPhase, hoe])
    | some e => exact Or.inr (Or.inr ⟨e, by simp [openPhase, hoe]⟩)
  | true =>
    cases hoe : openExn true s with
    | none => exact Or.inl (by simp [openPhase, hoe])
    | some e => exact Or.inr (Or.inl (by simp [openPhase, hoe]))

/-- In dry-run the try body always hands back the input state. -/
theorem tryBody_dry (im nt : Bool) (key : String) (g : PyStr) (mb : Bool) (s : FsState) :
    (∃ b, tryBody im nt key g true mb s = .ret b s)
      ∨ (∃ e, tryBody im nt key g true mb s = .raised e s) := by
  rcases openPhase_dry im nt s with hop | hop | ⟨e, hop⟩
  · cases hgc : getCurrent s.file.tags key with
    | error u => exact Or.inr ⟨.other, by simp only [tryBody, hop, hgc]⟩
    | ok c =>
      by_cases hcg : c = some g
      · exact Or.inl ⟨false, by simp only [tryBody, hop, hgc]; rw [if_pos hcg]⟩
      · exact Or.inl ⟨true, by simp only [tryBody, hop, hgc]; rw [if_neg hcg, if_pos trivial]⟩
  · exact Or.inl ⟨true, by simp only [tryBody, hop]⟩
  · exact Or.inr ⟨e, by simp only [tryBody, hop]⟩

/-- C4: with dry-run enabled, set_genre_tag never mutates anything: the
returned state (file contents, tags, permission bits, backup) is exactly
the input state, whatever the file looks like and whatever errors occur —
including the missing-tag-block MP3 path and the permission path, where the
dry-run checks precede add_tags, backup, write and chmod — and no
permission retry is performed. -/
theorem dry_run_no_mutation (fuel : Nat) (g : PyStr) (mb : Bool) (s : FsState) :
    (set_genre_tag fuel g true mb s).2.1 = s
    ∧ (set_genre_tag fuel g true mb s).2.2 = 0 := by
  cases hk : lookupHandler s.file.ext with
  | none => simp [set_genre_tag, hk]
  | some key =>
    rcases tryBody_dry (s.file.ext == ".mp3")
        (s.file.ext == ".mp3" || s.file.ext == ".mp2") key g mb s with ⟨b, htb⟩ | ⟨e, htb⟩
    · simp [set_genre_tag, hk, htb]
    · cases e with
      | other => simp [set_genre_tag, hk, htb]
      | perm => simp [set_genre_tag, hk, htb]

/-! Work items for the per-file worker. -/

/-- A ".au" file (a recognized audio extension with no format handler). -/
def itemAu : WorkItem :=
  { fs := { file := { ext := ".au", tags := some [("genre", [str "Rock"])], content := 0,
                      readable := true, writable := true },
            backup := none, io := cleanIO },
    underBase := true, relParts := [str "Rock"], pathName := str "/m/Rock/a.au",
    dry_run := false, make_backup := false, filter_genre := none }

/-- A healthy FLAC file already tagged with its folder's genre. -/
def itemFlacOk : WorkItem :=
  { fs := flacRock,
    underBase := true, relParts := [str "Rock"], pathName := str "/m/Rock/b.flac",
    dry_run := false, make_backup := false, filter_genre := none }

/-- A FLAC file whose container open raises a parse error. -/
def itemFlacCorrupt : WorkItem :=
  { fs := { flacRock with io := { cleanIO with openCorrupt := true } },
    underBase := true, relParts := [str "Rock"], pathName := str "/m/Rock/c.flac",
    dry_run := false, make_backup := false, filter_genre := none }

/-- C3 counterexample: the per-file outcome does not distinguish the
unsupported-extension case or the container-error case from the
already-correct case: set_genre_tag returns only a Bool and process_file
maps False — whatever its cause — to the single string
"Already correct or failed", so all three files report identically. -/
theorem outcome_categories_collapse :
    (process_file 3 itemAu).2 = msgAlreadyCorrectOrFailed
    ∧ (process_file 3 itemFlacCorrupt).2 = msgAlreadyCorrectOrFailed
    ∧ (process_file 3 itemFlacOk).2 = msgAlreadyCorrectOrFailed
    ∧ (process_file 3 itemAu).2 = (process_file 3 itemFlacOk).2
    ∧ (process_file 3 itemFlacCorrupt).2 = (process_file 3 itemFlacOk).2 := by decide

/-- C3 amended: the reported per-file outcome distinguishes only
"Genre set to '<genre>'" (update), "Genre not found",
"Skipped (genre filter)", and one merged category
"Already correct or failed" that covers unsupported extensions, container
errors and already-correct files alike; an unsupported extension lands in
the merged category, which is distinguishable from the Updated message but
not from an already-correct or failed file. -/
theorem outcome_reporting_amended :
    (∀ (fuel : Nat) (it : WorkItem) (gnre : PyStr),
       get_genre_from_path it.underBase it.relParts = some gnre → gnre ≠ [] →
       it.filter_genre = none →
       lookupHandler it.fs.file.ext = none →
       process_file fuel it = (it.pathName, msgAlreadyCorrectOrFailed))
    ∧ (∀ g : PyStr, msgGenreSet g ≠ msgAlreadyCorrectOrFailed)
    ∧ msgGenreNotFound ≠ msgAlreadyCorrectOrFailed
    ∧ msgSkippedFilter ≠ msgAlreadyCorrectOrFailed := by
  refine ⟨?_, ?_, by decide, by decide⟩
  · intro fuel it gnre hg hne hf hk
    have hs : set_genre_tag fuel gnre it.dry_run it.make_backup it.fs = (false, it.fs, 0) := by
      simp [set_genre_tag, hk]
    simp only [process_file, hg, hf]
    rw [if_neg hne, if_neg (by simp), hs]
    simp
  · intro g h
    have h1 : ∃ t, msgGenreSet g = 71 :: t := ⟨_, rfl⟩
    have h2 : ∃ t, msgAlreadyCorrectOrFailed = 65 :: t := ⟨_, rfl⟩
    obtain ⟨t1, ht1⟩ := h1
    obtain ⟨t2, ht2⟩ := h2
    rw [ht1, ht2] at h
    exact absurd (List.head_eq_of_cons_eq h) (by decide)

/-- Witness for outcome_reporting_amended at the concrete ".au" item. -/
theorem outcome_reporting_amended_witness :
    process_file 3 itemAu = (itemAu.pathName, msgAlreadyCorrectOrFailed)
    ∧ msgGenreSet (str "Rock") ≠ msgAlreadyCorrectOrFailed :=
  ⟨outcome_reporting_amended.1 3 itemAu (str "Rock") (by decide) (by decide) rfl (by decide),
   outcome_reporting_amended.2.1 (str "Rock")⟩

theorem writtenState_writable (mb : Bool) (s : FsState) (d : List (String × List PyStr))
    (key : String) (g : PyStr) :
    (writtenState mb s d key g).file.writable = s.file.writable := rfl

/-- A healthy MP3 with no ID3 tag block. -/
def mp3NoTags : FsState :=
  { file := { ext := ".mp3", tags := none, content := 0, readable := true,
              writable := true },
    backup := none, io := cleanIO }

/-- C7 counterexample: for an MP3 lacking an ID3 block, the first modifying
run writes an empty tag block to disk (add_tags + save in the open phase)
before the backup step runs, so the single backup created captures the
file after that initialization — not the file's state before the first
modification. -/
theorem backup_not_prefirst_on_mp3 :
    (set_genre_tag 3 (str "Rock") false true mp3NoTags).1 = true
    ∧ (set_genre_tag 3 (str "Rock") false true mp3NoTags).2.1.backup
        = some (addTagsSaved mp3NoTags).file
    ∧ (set_genre_tag 3 (str "Rock") false true mp3NoTags).2.1.backup
        ≠ some mp3NoTags.file := by decide

/-- C7 amended: the backup step copies only when no backup exists and never
overwrites an existing backup; and for a file that already has a tag
dictionary (so no pre-backup tag-block initialization happens), two
consecutive modifying runs in a clean environment produce exactly one
backup, whose content is the file's state before the first run.  (For an
MP3 with no ID3 block the backup instead captures the file after the
empty tag block was written.) -/
theorem backup_once_amended :
    (∀ (s : FsState) (b : FileData), s.backup = some b → backup_file s = (true, s))
    ∧ (∀ (fuel fuel' : Nat) (g g' : PyStr) (s : FsState) (key : String)
         (d : List (String × List PyStr)),
       s.file.readable = true → s.file.writable = true →
       s.io.aclDenied = false → s.io.openCorrupt = false →
       s.io.saveFails = false → s.io.copyFails = false →
       lookupHandler s.file.ext = some key →
       s.file.tags = some d → s.backup = none →
       (set_genre_tag fuel g false true s).1 = true →
       (set_genre_tag fuel' g' false true (set_genre_tag fuel g false true s).2.1).1 = true →
       (set_genre_tag fuel' g' false true
           (set_genre_tag fuel g false true s).2.1).2.1.backup = some s.file) := by
  constructor
  · intro s b hb
    simp [backup_file, hb]
  · intro fuel fuel' g g' s key d hre hwr hacl hcor hsave hcopy hk ht hb h1 h2
    cases hrc : readCurrent d key with
    | error u =>
      cases u
      rw [set_genre_tag_indexError fuel g false true s key d hre hacl hcor hk ht hrc] at h1
      exact Bool.noConfusion h1
    | ok c =>
      by_cases hc : c = some g
      · obtain ⟨rest, hv⟩ := readCurrent_ok_some (hc ▸ hrc)
        rw [set_genre_tag_already fuel g false true s key d rest hre hacl hcor hk ht hv] at h1
        exact Bool.noConfusion h1
      · have hrun1 := set_genre_tag_update fuel g true s key d c hre hwr hacl hcor hsave hk ht hrc hc
        rw [hrun1] at h2 ⊢
        simp only at h2 ⊢
        have hWacl : (writtenState true s d key g).io.aclDenied = false := by
          rw [writtenState_io]; exact hacl
        have hWcor : (writtenState true s d key g).io.openCorrupt = false := by
          rw [writtenState_io]; exact hcor
        have hWsave : (writtenState true s d key g).io.saveFails = false := by
          rw [writtenState_io]; exact hsave
        have hrc2 : readCurrent (setTag d key [g]) key = .ok (some g) := by
          simp [readCurrent, lookupTag_setTag]
        by_cases hc2 : (some g : Option PyStr) = some g'
        · obtain ⟨rest2, hv2⟩ := readCurrent_ok_some (hc2 ▸ hrc2)
          rw [set_genre_tag_already fuel' g' false true (writtenState true s d key g)
            key (setTag d key [g]) rest2 hre hWacl hWcor hk rfl hv2] at h2
          exact Bool.noConfusion h2
        · have hrun2 := set_genre_tag_update fuel' g' true (writtenState true s d key g)
            key (setTag d key [g]) (some g) hre hwr hWacl hWcor hWsave hk rfl hrc2 hc2
          rw [hrun2]
          simp only
          have hWb : (writtenState true s d key g).backup = some s.file := by
            show (if true then (backup_file s).2 else s).backup = some s.file
            simp [backup_file, hb, hcopy]
          show (if true then (backup_file (writtenState true s d key g)).2
            else writtenState true s d key g).backup = some s.file
          simp [backup_file, hWb]

/-- Witness for backup_once_amended at the concrete FLAC file: two runs,
first to "Pop" then to "Jazz", leave exactly the pre-run file as backup. -/
theorem backup_once_amended_witness :
    backup_file { flacRock with backup := some flacRock.file }
      = (true, { flacRock with backup := some flacRock.file })
    ∧ (set_genre_tag 2 (str "Jazz") false true
        (set_genre_tag 3 (str "Pop") false true flacRock).2.1).2.1.backup
      = some flacRock.file :=
  ⟨backup_once_amended.1 { flacRock with backup := some flacRock.file } flacRock.file rfl,
   backup_once_amended.2 3 2 (str "Pop") (str "Jazz") flacRock "genre"
     [("genre", [str "Rock"])] rfl rfl rfl rfl rfl rfl (by decide) rfl rfl
     (by decide) (by decide)⟩

/-- The FLAC file in an environment where the backup copy raises. -/
def copyFailState : FsState :=
  { flacRock with io := { cleanIO with copyFails := true } }

/-- C10: when make_backup is set and the backup copy raises, backup_file
swallows the exception (returning False, which set_genre_tag discards):
the update still writes the new genre tag and returns True, and no backup
exists afterwards — a successful update does not imply a backup exists. -/
theorem backup_failure_ignored (fuel : Nat) (g : PyStr) (s : FsState)
    (key : String) (d : List (String × List PyStr)) (c : Option PyStr)
    (hre : s.file.readable = true) (hwr : s.file.writable = true)
    (hacl : s.io.aclDenied = false) (hcor : s.io.openCorrupt = false)
    (hsave : s.io.saveFails = false) (hcopy : s.io.copyFails = true)
    (hb : s.backup = none)
    (hk : lookupHandler s.file.ext = some key)
    (ht : s.file.tags = some d)
    (hc : readCurrent d key = .ok c) (hne : c ≠ some g) :
    (set_genre_tag fuel g false true s).1 = true
    ∧ (set_genre_tag fuel g false true s).2.1.backup = none
    ∧ (set_genre_tag fuel g false true s).2.1.file.tags = some (setTag d key [g]) := by
  have h := set_genre_tag_update fuel g true s key d c hre hwr hacl hcor hsave hk ht hc hne
  rw [h]
  refine ⟨rfl, ?_, rfl⟩
  show (if true then (backup_file s).2 else s).backup = none
  simp [backup_file, hb, hcopy]

/-- Witness for backup_failure_ignored: the FLAC file with a failing copy
still gets updated to "Pop" with no backup created. -/
theorem backup_failure_ignored_witness :
    (set_genre_tag 3 (str "Pop") false true copyFailState).1 = true
    ∧ (set_genre_tag 3 (str "Pop") false true copyFailState).2.1.backup = none
    ∧ (set_genre_tag 3 (str "Pop") false true copyFailState).2.1.file.tags
        = some (setTag [("genre", [str "Rock"])] "genre" [str "Pop"]) :=
  backup_failure_ignored 3 (str "Pop") copyFailState "genre"
    [("genre", [str "Rock"])] (some (str "Rock")) rfl rfl rfl rfl rfl rfl rfl
    (by decide) rfl rfl (by decide)

/-- C8: the worker never propagates an exception to the scheduler.
(1) For every input tuple, process_file returns the path paired with one of
the four defined outcome strings — in particular set_genre_tag converts
every raised exception into a Bool, so there is always a per-file outcome.
(2) The outcome at each position of a batch is exactly the outcome of
processing that file alone, so one file's failure leaves every other
file's outcome unchanged.
(3) Concretely, a file whose container open raises a (non-permission)
error still yields the normal "Already correct or failed" outcome. -/
theorem worker_isolation :
    (∀ (fuel : Nat) (it : WorkItem),
       (process_file fuel it).1 = it.pathName
       ∧ ((process_file fuel it).2 = msgGenreNotFound
          ∨ (process_file fuel it).2 = msgSkippedFilter
          ∨ (∃ g, (process_file fuel it).2 = msgGenreSet g)
          ∨ (process_file fuel it).2 = msgAlreadyCorrectOrFailed))
    ∧ (∀ (fuel : Nat) (batch : List WorkItem) (i : Nat)
         (h1 : i < (batch.map (process_file fuel)).length) (h2 : i < batch.length),
       (batch.map (process_file fuel)).get ⟨i, h1⟩ = process_file fuel (batch.get ⟨i, h2⟩))
    ∧ (∀ (fuel : Nat) (it : WorkItem) (gnre : PyStr) (key : String),
       get_genre_from_path it.underBase it.relParts = some gnre → gnre ≠ [] →
       it.filter_genre = none → it.dry_run = false →
       it.fs.io.openCorrupt = true → it.fs.file.readable = true →
       it.fs.io.aclDenied = false →
       lookupHandler it.fs.file.ext = some key →
       process_file fuel it = (it.pathName, msgAlreadyCorrectOrFailed)) := by
  refine ⟨?_, ?_, ?_⟩
  · intro fuel it
    cases hg : get_genre_from_path it.underBase it.relParts with
    | none =>
      simp [process_file, hg]
    | some g =>
      simp only [process_file, hg]
      constructor
      · split_ifs <;> rfl
      · split_ifs with hA hB hC
        · exact Or.inl rfl
        · exact Or.inr (Or.inl rfl)
        · exact Or.inr (Or.inr (Or.inl ⟨g, rfl⟩))
        · exact Or.inr (Or.inr (Or.inr rfl))
  · intro fuel batch i h1 h2
    simp only [List.get_eq_getElem, List.getElem_map]
  · intro fuel it gnre key hg hne hf hdr hcor hre hacl hk
    have hop : ∀ nt, openExn nt it.fs = some Exn.other := by
      intro nt; simp [openExn, hre, hacl, hcor]
    have hbody : ∀ im nt, tryBody im nt key gnre false it.make_backup it.fs
        = .raised .other it.fs := by
      intro im nt; cases im <;> simp [tryBody, openPhase, hop]
    have hs : set_genre_tag fuel gnre it.dry_run it.make_backup it.fs
        = (false, it.fs, 0) := by
      rw [hdr]
      simp [set_genre_tag, hk, hbody]
    simp only [process_file, hg]
    rw [if_neg hne, if_neg (by simp [hf]), hs]
    simp

/-- Witness for worker_isolation at concrete inputs. -/
theorem worker_isolation_witness :
    ((process_file 3 itemFlacCorrupt).1 = itemFlacCorrupt.pathName
      ∧ ((process_file 3 itemFlacCorrupt).2 = msgGenreNotFound
         ∨ (process_file 3 itemFlacCorrupt).2 = msgSkippedFilter
         ∨ (∃ g, (process_file 3 itemFlacCorrupt).2 = msgGenreSet g)
         ∨ (process_file 3 itemFlacCorrupt).2 = msgAlreadyCorrectOrFailed))
    ∧ ([itemFlacCorrupt, itemFlacOk].map (process_file 3)).get ⟨1, by decide⟩
        = process_file 3 ([itemFlacCorrupt, itemFlacOk].get ⟨1, by decide⟩)
    ∧ process_file 3 itemFlacCorrupt
        = (itemFlacCorrupt.pathName, msgAlreadyCorrectOrFailed) :=
  ⟨worker_isolation.1 3 itemFlacCorrupt,
   worker_isolation.2.1 3 [itemFlacCorrupt, itemFlacOk] 1 (by decide) (by decide),
   worker_isolation.2.2 3 itemFlacCorrupt (str "Rock") "genre"
     (by decide) (by decide) rfl rfl rfl rfl rfl (by decide)⟩

theorem chunkPos_flatten_aux {α : Type} (k : Nat) :
    ∀ (n : Nat) (l : List α), l.length ≤ n → (chunkPos k l).flatten = l := by
  intro n
  induction n with
  | zero =>
    intro l hl
    have h0 : l = [] := List.eq_nil_of_length_eq_zero (Nat.le_zero.1 hl)
    subst h0; rw [chunkPos]; rfl
  | succ n ih =>
    intro l hl
    cases l with
    | nil => rw [chunkPos]; rfl
    | cons a t =>
      rw [chunkPos, List.flatten_cons]
      have hd : ((a :: t).drop (k + 1)).length ≤ n := by
        simp only [List.length_drop, List.length_cons]
        simp only [List.length_cons] at hl
        omega
      rw [ih _ hd, List.take_append_drop]

/-- Every slice files[i:i+bs] is a contiguous prefix of the remainder: the
in-order concatenation of all batches is the original list. -/
theorem chunkPos_flatten {α : Type} (k : Nat) (l : List α) :
    (chunkPos k l).flatten = l :=
  chunkPos_flatten_aux k l.length l (Nat.le_refl _)

theorem chunkPos_sizes_aux {α : Type} (k : Nat) :
    ∀ (n : Nat) (l : List α), l.length ≤ n →
      ∀ c ∈ chunkPos k l, c ≠ [] ∧ c.length ≤ k + 1 := by
  intro n
  induction n with
  | zero =>
    intro l hl c hc
    have h0 : l = [] := List.eq_nil_of_length_eq_zero (Nat.le_zero.1 hl)
    subst h0; simp [chunkPos] at hc
  | succ n ih =>
    intro l hl c hc
    cases l with
    | nil => simp [chunkPos] at hc
    | cons a t =>
      rw [chunkPos] at hc
      rcases List.mem_cons.1 hc with rfl | hc'
      · constructor
        · simp [List.take]
        · simp [List.length_take_le]
      · have hd : ((a :: t).drop (k + 1)).length ≤ n := by
          simp only [List.length_drop, List.length_cons]
          simp only [List.length_cons] at hl
          omega
        exact ih _ hd c hc'

/-- C9: for a positive batch size, the scheduler's slices files[i:i+bs]
form contiguous nonempty batches of at most bs elements whose in-order
concatenation is the original list, and the full run's outcome stream is
exactly one process_file outcome per input file, in order (each batch is
consumed before the next is formed).  A batch size of zero makes the
range(0, total, 0) raise, modelled by batchSlices returning none. -/
theorem batch_partition (bs : Nat) (l : List WorkItem) (fuel : Nat) (hbs : 0 < bs) :
    ∃ chunks, batchSlices bs l = some chunks
      ∧ chunks.flatten = l
      ∧ (∀ c ∈ chunks, c ≠ [] ∧ c.length ≤ bs)
      ∧ process_files_in_batches fuel l bs = some (l.map (process_file fuel)) := by
  cases bs with
  | zero => exact absurd hbs (by simp)
  | succ k =>
    refine ⟨chunkPos k l, rfl, chunkPos_flatten k l,
      chunkPos_sizes_aux k l.length l (Nat.le_refl _), ?_⟩
    simp only [process_files_in_batches, batchSlices, Option.map_some']
    congr 1
    rw [← List.map_flatten, chunkPos_flatten]

/-- Witness for batch_partition at a concrete three-item list with batch
size 2. -/
theorem batch_partition_witness :
    ∃ chunks, batchSlices 2 [itemAu, itemFlacOk, itemFlacCorrupt] = some chunks
      ∧ chunks.flatten = [itemAu, itemFlacOk, itemFlacCorrupt]
      ∧ (∀ c ∈ chunks, c ≠ [] ∧ c.length ≤ 2)
      ∧ process_files_in_batches 1 [itemAu, itemFlacOk, itemFlacCorrupt] 2
          = some ([itemAu, itemFlacOk, itemFlacCorrupt].map (process_file 1)) :=
  batch_partition 2 [itemAu, itemFlacOk, itemFlacCorrupt] 1 (by decide)
